import Mathlib

/-!
Verification development for the preempt-k8s controller
(dessertlab/preempt-k8s, directory controller/src).

The definitions below are a shallow embedding of the Rust sources:
  - utils/rtresource.rs        : the RTResource data model
  - components/scheduling.rs   : pod label construction (create_pod)
  - components/watchdog.rs     : the reconciliation action and worker loop
  - components/event_server.rs : the autoscaling supervisor
  - components/pod_watcher.rs  : managed-pod recognition
  - components/resource_state_updater.rs : the status reconciler

Machine integers (i32, i64, u32, usize) are modelled as Int or Nat; none of
the verified properties involves values anywhere near the overflow range,
and the Rust build traps on overflow in the arithmetic concerned.  The
field rtresource.spec.replicas is declared Option of i32 in rtresource.rs
but consumed as a plain i32 by watchdog.rs (lines 188 and 243); the
embedding follows the consuming code and models it as Int.
-/

namespace PreemptK8s

/-! ## Priority event queue (C1 in the spec overview).

Modelled from the spec: the queue itself is a POSIX message queue
(libc mq_open, mq_send, mq_receive), whose implementation is not part of
this repository; only its callers are (resource_watcher.rs, pod_watcher.rs,
watchdog.rs).  Section 4.1 of the spec states the contract: send appends to
its band, receive returns the message from the lowest-numbered non-empty
band, FIFO within each band.  The sources pass the criticality directly as
the mq message priority, and the spec fixes band 0 as most critical, so the
model dequeues the lowest band first as the spec describes. -/

/-- A queue state: the messages currently enqueued, oldest first, each
paired with its priority band. -/
abbrev QueueState (Msg : Type) : Type := List (Msg × Nat)

/-- The messages of band b still in the queue, oldest first. -/
def bandMsgs {Msg : Type} (b : Nat) (s : QueueState Msg) : List Msg :=
  (s.filter (fun p => p.2 = b)).map Prod.fst

/-- Modelled from the spec: send appends the message to the queue at the
given band. -/
def qsend {Msg : Type} (s : QueueState Msg) (m : Msg) (b : Nat) : QueueState Msg :=
  s ++ [(m, b)]

/-- The lowest band currently holding a message, if any. -/
def minBand {Msg : Type} : QueueState Msg → Option Nat
  | [] => none
  | p :: rest =>
      some (match minBand rest with
            | none => p.2
            | some b => min p.2 b)

/-- Remove the oldest message of band b, returning it with the remaining
queue state. -/
def takeBand {Msg : Type} (b : Nat) : QueueState Msg → Option (Msg × QueueState Msg)
  | [] => none
  | p :: rest =>
      if p.2 = b then some (p.1, rest)
      else (takeBand b rest).map (fun q => (q.1, p :: q.2))

/-- Modelled from the spec: receive returns the oldest message of the
lowest-numbered non-empty band, together with its band and the remaining
queue state. -/
def qreceive {Msg : Type} (s : QueueState Msg) : Option ((Msg × Nat) × QueueState Msg) :=
  match minBand s with
  | none => none
  | some b => (takeBand b s).map (fun q => ((q.1, b), q.2))

/-! ## Data model, from utils/rtresource.rs. -/

/-- Condition entry of an RTResource status (rtresource.rs, struct
Condition).  The serde rename of condition_type to type only affects the
wire format. -/
structure Condition where
  condition_type : String
  status : String
  last_transition_time : Option String
  reason : Option String
  message : Option String
deriving DecidableEq

/-- RTResource status subresource (rtresource.rs, struct RTResourceStatus). -/
structure RTResourceStatus where
  observed_generation : Option Int
  desired_replicas : Option Int
  replicas : Option Int
  conditions : Option (List Condition)
deriving DecidableEq

/-- The Default derive of RTResourceStatus: every field None. -/
def defaultStatus : RTResourceStatus :=
  { observed_generation := none, desired_replicas := none,
    replicas := none, conditions := none }

/-- Pod template metadata: only the labels are consulted by the code under
verification (scheduling.rs create_pod). -/
structure TemplateMeta where
  labels : Option (List (String × String))
deriving DecidableEq

/-- Pod template of an RTResource spec (rtresource.rs, struct Template). -/
structure Template where
  metadata : Option TemplateMeta
deriving DecidableEq

/-- Selector of an RTResource spec (rtresource.rs, struct Selector);
match_expressions are not supported by the code and are omitted. -/
structure Selector where
  match_labels : Option (List (String × String))
deriving DecidableEq

/-- RTResource spec (rtresource.rs, struct RTResourceSpec).  The Rust
field named namespace is called namespace_ here because namespace is a
Lean keyword. -/
structure RTResourceSpec where
  namespace_ : String
  replicas : Int
  selector : Option Selector
  criticality : Nat
  template : Template
deriving DecidableEq

/-- The kube ObjectMeta fields read by the code under verification. -/
structure ObjectMetaM where
  name : Option String
  uid : Option String
  namespace_ : Option String
  generation : Option Int
deriving DecidableEq

/-- An RTResource object: metadata, spec and optional status. -/
structure RTResource where
  metadata : ObjectMetaM
  spec : RTResourceSpec
  status : Option RTResourceStatus
deriving DecidableEq

/-- The pod status fields read by the code (phase only). -/
structure PodStatusM where
  phase : Option String
deriving DecidableEq

/-- A pod object as read by the code: metadata labels and status phase. -/
structure PodM where
  name : Option String
  namespace_ : Option String
  labels : Option (List (String × String))
  status : Option PodStatusM
deriving DecidableEq

/-! ## Label maps.

Rust BTreeMap of String to String, modelled as an association list with
overwriting insert.  The BTreeMap stores keys in key order while this model
stores them in insertion order; every property proved below depends only on
lookup results, which agree. -/

abbrev LabelMap : Type := List (String × String)

/-- BTreeMap insert: overwrite the value if the key is present, append the
pair otherwise. -/
def insertLabel : LabelMap → String → String → LabelMap
  | [], k, v => [(k, v)]
  | (k', v') :: rest, k, v =>
      if k' = k then (k, v) :: rest else (k', v') :: insertLabel rest k v

/-- BTreeMap get. -/
def lookupLabel (m : LabelMap) (k : String) : Option String :=
  (m.find? (fun p => p.1 == k)).map Prod.snd

/-! ## Pod label construction, from scheduling.rs create_pod
(lines 52 to 80): template labels, then selector match_labels, then
rtresource_id and criticality. -/

def createPodLabels (rtresource : RTResource) : LabelMap :=
  let labels : LabelMap := []
  let labels :=
    match rtresource.spec.template.metadata with
    | some pod_metadata =>
        match pod_metadata.labels with
        | some pod_labels =>
            pod_labels.foldl (fun m kv => insertLabel m kv.1 kv.2) labels
        | none => labels
    | none => labels
  let labels :=
    match rtresource.spec.selector with
    | some selector =>
        match selector.match_labels with
        | some match_labels =>
            match_labels.foldl (fun m kv => insertLabel m kv.1 kv.2) labels
        | none => labels
    | none => labels
  let labels := insertLabel labels "rtresource_id" (rtresource.metadata.uid.getD "")
  insertLabel labels "criticality" (toString rtresource.spec.criticality)

/-! ## Managed-pod recognition, from pod_watcher.rs (lines 88 to 106):
on a pod deletion event, the watcher emits a message only when the pod
labels contain rtresource_name, rtresource_uid, rtresource_namespace and a
criticality that parses as an unsigned integer. -/

def podWatcherMessage (labels : Option LabelMap) :
    Option (String × String × String × Nat) :=
  match labels with
  | none => none
  | some ls =>
      match lookupLabel ls "rtresource_name", lookupLabel ls "rtresource_uid",
            lookupLabel ls "rtresource_namespace", lookupLabel ls "criticality" with
      | some name, some uid, some ns, some cs =>
          match cs.toNat? with
          | some c => some (name, uid, ns, c)
          | _ => none
      | _, _, _, _ => none

/-! ## The Exists-branch status update, from watchdog.rs
(lines 184 to 216). -/

/-- The body of the for loop over the status conditions (watchdog.rs lines
191 to 204): two sequential if statements on the condition type. -/
def updateCondExists (now : String) (cond : Condition) : Condition :=
  let cond :=
    if cond.condition_type = "Progressing" then
      { cond with status := "True",
                  reason := some "RTResource Spec changed!",
                  message := some "RTResource Spec changed!!",
                  last_transition_time := some now }
    else cond
  if cond.condition_type = "Ready" then
    { cond with status := "False",
                reason := some "RTResource Spec changed!!",
                message := some "RTResource Spec changed!!",
                last_transition_time := some now }
  else cond

/-- The status value submitted with replace_status in the Exists branch
(watchdog.rs lines 184 to 216), with now standing for the
chrono timestamp. -/
def watchdogNewStatus (now : String) (r : RTResource) : RTResourceStatus :=
  let new_rtresource_status := r.status.getD defaultStatus
  let new_rtresource_status :=
    { new_rtresource_status with observed_generation := r.metadata.generation }
  let new_rtresource_status :=
    { new_rtresource_status with desired_replicas := some r.spec.replicas }
  let new_rtresource_conditions :=
    (new_rtresource_status.conditions.getD []).map (updateCondExists now)
  { new_rtresource_status with conditions := some new_rtresource_conditions }

/-! ## The replica-scaling decision, from watchdog.rs (lines 241 to 257). -/

/-- The list call of watchdog.rs line 241: pods matching the label selector
rtresource_id equal to the RTResource uid. -/
def listPodsForUid (pods : List PodM) (uid : String) : List PodM :=
  pods.filter (fun p => lookupLabel (p.labels.getD []) "rtresource_id" == some uid)

/-- What the scaling block does: how many pods it creates and which listed
pods it deletes. -/
structure ScaleAction where
  create_count : Nat
  to_delete : List PodM
deriving DecidableEq

/-- watchdog.rs lines 242 to 257: pods_needed is the absolute difference;
scale up creates that many pods, scale down deletes that many pods taken
from the front of the list. -/
def scaleAction (desired_pod_count : Int) (pod_list : List PodM) : ScaleAction :=
  let pod_count : Int := pod_list.length
  let pods_needed : Nat := (desired_pod_count - pod_count).natAbs
  if desired_pod_count > pod_count then
    { create_count := pods_needed, to_delete := [] }
  else if desired_pod_count < pod_count then
    { create_count := 0, to_delete := pod_list.take pods_needed }
  else
    { create_count := 0, to_delete := [] }

/-! ## The reconciliation action as a whole, from watchdog.rs
(lines 148 to 286). -/

/-- Result of the initial RTResource fetch (watchdog.rs line 153): found,
or an error whose message contains 404 (the Deleted branch), or any other
error. -/
inductive FetchResult
  | found (r : RTResource)
  | notFound
  | apiError

/-- Result of a fallible API call. -/
inductive ApiResult (α : Type)
  | ok (val : α)
  | err

/-- The API outcomes a single reconciliation can encounter.  The
replace_status, create_pod and delete_pod outcomes are recorded so that the
theorems can state that they do not influence the control flow: in the
source each of them is logged and discarded (watchdog.rs lines 217 to 234,
247 to 249, 252 to 256, 273 to 278). -/
structure ReconcileEnv where
  fetch : FetchResult
  list_pods : ApiResult (List PodM)
  replace_status_ok : Bool
  create_ok : Nat → Bool
  delete_ok : Nat → Bool

/-- How one invocation of the reconciliation action ends: the worker loop
continues, or the thread panics (an unwrap on an Err). -/
inductive ReconcileOutcome
  | completed
  | panicked
deriving DecidableEq

/-- The effects of one reconciliation: its outcome, the status submitted
with replace_status if any, the number of create_pod calls and the pods
passed to delete_pod. -/
structure ReconcileResult where
  outcome : ReconcileOutcome
  status_written : Option RTResourceStatus
  created : Nat
  deleted : List PodM

/-- The reconciliation action (watchdog.rs lines 148 to 286).  In the
Exists branch the status is submitted first, then the pod list is fetched
with unwrap (line 241) and the scaling block runs; in the Deleted branch
the pod list is fetched with unwrap (line 273) and every listed pod is
deleted; any other fetch error is logged and the action returns. -/
def reconcile (now : String) (env : ReconcileEnv) : ReconcileResult :=
  match env.fetch with
  | .found r =>
      let st := watchdogNewStatus now r
      match env.list_pods with
      | .err => { outcome := .panicked, status_written := some st,
                  created := 0, deleted := [] }
      | .ok pod_list =>
          let act := scaleAction r.spec.replicas pod_list
          { outcome := .completed, status_written := some st,
            created := act.create_count, deleted := act.to_delete }
  | .notFound =>
      match env.list_pods with
      | .err => { outcome := .panicked, status_written := none,
                  created := 0, deleted := [] }
      | .ok pod_list =>
          { outcome := .completed, status_written := none,
            created := 0, deleted := pod_list }
  | .apiError =>
      { outcome := .completed, status_written := none,
        created := 0, deleted := [] }

/-! ## Supervisor and worker pool, from event_server.rs and watchdog.rs. -/

/-- The controller configuration fields used by the pool logic
(configuration.rs, struct ControllerConfig). -/
structure ControllerConfig where
  min_watchdogs : Nat
  max_watchdogs : Nat
  threshold : Nat
deriving DecidableEq

/-- The new value of active_threads computed by the supervisor when it
grows the pool (event_server.rs lines 96 to 103). -/
def superviseNewActive (cfg : ControllerConfig)
    (active_threads working_threads : Nat) : Nat :=
  let difference := active_threads - working_threads
  let needed := cfg.threshold - difference
  let new_active := active_threads + needed
  if new_active > cfg.max_watchdogs then cfg.max_watchdogs else new_active

/-- The decision a worker takes at the end of an event (watchdog.rs lines
310 to 315): decrement working_threads, then exit when the idle count
exceeds the threshold and the pool is above the minimum. -/
structure FinishDecision where
  working_threads : Nat
  exits : Bool
deriving DecidableEq

def watchdogFinish (cfg : ControllerConfig)
    (active_threads working_threads : Nat) : FinishDecision :=
  let working := working_threads - 1
  let decision := active_threads - working
  if decision > cfg.threshold ∧ active_threads > cfg.min_watchdogs then
    { working_threads := working, exits := true }
  else
    { working_threads := working, exits := false }

/-- The pool counters guarded by the shared mutex. -/
structure PoolState where
  active_threads : Nat
  working_threads : Nat
deriving DecidableEq

/-- The mutations of the pool counters, each performed under the mutex:
a worker picks up an event (watchdog.rs line 124; the guard records that
only one of the active_threads worker threads can do so), a worker finishes
an event and applies its exit decision (watchdog.rs lines 310 to 335, where
the exiting worker also decrements active_threads), and the supervisor
grows the pool when the idle count is below the threshold (event_server.rs
lines 95 to 103). -/
inductive PoolStep (cfg : ControllerConfig) : PoolState → PoolState → Prop
  | recv {a w : Nat} (hw : w < a) :
      PoolStep cfg ⟨a, w⟩ ⟨a, w + 1⟩
  | finish {a w : Nat} (hw : 0 < w) (hwa : w ≤ a) :
      PoolStep cfg ⟨a, w⟩
        ⟨if (watchdogFinish cfg a w).exits then a - 1 else a,
         (watchdogFinish cfg a w).working_threads⟩
  | grow {a w : Nat} (hidle : a - w < cfg.threshold) :
      PoolStep cfg ⟨a, w⟩ ⟨superviseNewActive cfg a w, w⟩

/-- The pool states reachable after the supervisor bootstrap, which sets
active_threads to min_watchdogs with no worker busy (event_server.rs
lines 46 to 79). -/
inductive PoolReachable (cfg : ControllerConfig) : PoolState → Prop
  | bootstrap : PoolReachable cfg ⟨cfg.min_watchdogs, 0⟩
  | step {s s' : PoolState} :
      PoolReachable cfg s → PoolStep cfg s s' → PoolReachable cfg s'

/-! ## The status reconciler, from resource_state_updater.rs. -/

/-- resource_state_updater.rs lines 59 to 65: a pod counts as running when
its status phase is the string Running. -/
def isRunning (p : PodM) : Bool :=
  match p.status with
  | some status => status.phase == some "Running"
  | none => false

def runningCount (pods : List PodM) : Nat :=
  (pods.filter isRunning).length

/-- resource_state_updater.rs lines 36 to 38: a resource is processed when
its status holds a condition of type Progressing with status True. -/
def hasProgressingTrue (r : RTResource) : Bool :=
  match r.status with
  | some s =>
      (s.conditions.getD []).any
        (fun c => c.condition_type == "Progressing" && c.status == "True")
  | none => false

/-- The body of the condition loop run when the running count matches the
desired count (resource_state_updater.rs lines 82 to 95). -/
def flipCondReady (now : String) (cond : Condition) : Condition :=
  let cond :=
    if cond.condition_type = "Progressing" then
      { cond with status := "False",
                  reason := some "All desired replicas are running!",
                  message := some "All desired replicas are running!",
                  last_transition_time := some now }
    else cond
  if cond.condition_type = "Ready" then
    { cond with status := "True",
                reason := some "All desired replicas are running!",
                message := some "All desired replicas are running!",
                last_transition_time := some now }
  else cond

/-- The conditions held by an RTResource status, empty when absent. -/
def statusConds (r : RTResource) : List Condition :=
  (r.status.getD defaultStatus).conditions.getD []

/-- The status submitted by the status reconciler for one processed
resource (resource_state_updater.rs lines 40 and 76 to 98): replicas is set
to the running count, and the conditions are flipped exactly when the
running count equals the stored desired count (0 when unset). -/
def updaterNewStatus (now : String) (r : RTResource) (pods : List PodM) :
    RTResourceStatus :=
  let desired_replicas : Int := (r.status.bind (fun s => s.desired_replicas)).getD 0
  let running_count : Int := runningCount pods
  let new_status := r.status.getD defaultStatus
  let new_status := { new_status with replicas := some running_count }
  let new_conditions := new_status.conditions.getD []
  let new_conditions :=
    if running_count = desired_replicas then
      new_conditions.map (flipCondReady now)
    else new_conditions
  { new_status with conditions := some new_conditions }

/-- resource_state_updater.rs line 34: the listed resources are sorted by
ascending criticality before processing. -/
def sortByCriticality (items : List RTResource) : List RTResource :=
  items.mergeSort (fun a b => decide (a.spec.criticality ≤ b.spec.criticality))

/-- The subsequence of one reconciler pass that is actually processed: the
sorted list restricted to the resources with a Progressing True
condition. -/
def statusPassList (items : List RTResource) : List RTResource :=
  (sortByCriticality items).filter hasProgressingTrue

/-- The loop control of the status reconciler (resource_state_updater.rs
lines 23 to 134) applied to a finite schedule of RTResource list outcomes
(true for a successful list): returns true exactly when the loop breaks out
with the fatal-degraded message.  A successful pass leaves error_count
untouched (there is no reset in the Ok arm); a failed list increments it
and the loop exits when it reaches 10. -/
def updaterLoopExits : Nat → List Bool → Bool
  | _, [] => false
  | error_count, ok :: rest =>
      if ok then updaterLoopExits error_count rest
      else if error_count + 1 ≥ 10 then true
      else updaterLoopExits (error_count + 1) rest

/-! ## Sample objects used as concrete inputs. -/

/-- A freshly admitted RTResource: no status yet, two template labels and
one selector label. -/
def sampleRTResource : RTResource :=
  { metadata := { name := some "svc", uid := some "uid-1",
                  namespace_ := some "ns", generation := some 4 },
    spec := { namespace_ := "ns", replicas := 3,
              selector := some { match_labels := some [("app", "svc")] },
              criticality := 2,
              template := { metadata := some { labels := some [("tier", "rt"), ("app", "base")] } } },
    status := none }

/-- A pod carrying the labels create_pod writes for sampleRTResource. -/
def samplePod : PodM :=
  { name := some "svc-1700000000000",
    namespace_ := some "ns",
    labels := some (createPodLabels sampleRTResource),
    status := some { phase := some "Running" } }

/-- An RTResource mid-reconciliation: one desired replica, Progressing is
True and Ready is False. -/
def sampleProgressingResource : RTResource :=
  { metadata := { name := some "svc", uid := some "uid-1",
                  namespace_ := some "ns", generation := some 4 },
    spec := { namespace_ := "ns", replicas := 1,
              selector := none, criticality := 2,
              template := { metadata := none } },
    status := some
      { observed_generation := some 4, desired_replicas := some 1,
        replicas := some 0,
        conditions := some
          [ { condition_type := "Progressing", status := "True",
              last_transition_time := some "t0",
              reason := some "RTResource Spec changed!",
              message := some "RTResource Spec changed!!" },
            { condition_type := "Ready", status := "False",
              last_transition_time := some "t0",
              reason := some "RTResource Spec changed!!",
              message := some "RTResource Spec changed!!" } ] } }

end PreemptK8s

namespace PreemptK8s

theorem minBand_none_iff {Msg : Type} (s : QueueState Msg) :
    minBand s = none ↔ s = [] := by
  cases s with
  | nil => simp [minBand]
  | cons p rest => simp [minBand]

theorem minBand_le {Msg : Type} (s : QueueState Msg) (b : Nat)
    (h : minBand s = some b) : ∀ p ∈ s, b ≤ p.2 := by
  induction s generalizing b with
  | nil => simp [minBand] at h
  | cons q rest ih =>
    intro p hp
    simp only [minBand] at h
    rcases List.mem_cons.mp hp with hp | hp
    · subst hp
      cases hrest : minBand rest with
      | none => simp [hrest] at h; omega
      | some c =>
        simp [hrest] at h
        omega
    · cases hrest : minBand rest with
      | none =>
        rw [(minBand_none_iff rest).mp hrest] at hp
        simp at hp
      | some c =>
        simp [hrest] at h
        have := ih c hrest p hp
        omega

theorem minBand_mem {Msg : Type} (s : QueueState Msg) (b : Nat)
    (h : minBand s = some b) : ∃ p ∈ s, p.2 = b := by
  induction s generalizing b with
  | nil => simp [minBand] at h
  | cons q rest ih =>
    simp only [minBand] at h
    cases hrest : minBand rest with
    | none =>
      simp [hrest] at h
      exact ⟨q, by simp, by omega⟩
    | some c =>
      simp [hrest] at h
      by_cases hqc : q.2 ≤ c
      · refine ⟨q, by simp, ?_⟩
        omega
      · obtain ⟨p, hp, hpb⟩ := ih c hrest
        refine ⟨p, by simp [hp], ?_⟩
        omega

theorem bandMsgs_ne_nil_of_mem {Msg : Type} (s : QueueState Msg) (p : Msg × Nat)
    (hp : p ∈ s) : bandMsgs p.2 s ≠ [] := by
  induction s with
  | nil => simp at hp
  | cons q rest ih =>
    rcases List.mem_cons.mp hp with hp | hp
    · subst hp
      simp [bandMsgs, List.filter]
    · by_cases hq : q.2 = p.2
      · simp [bandMsgs, List.filter, hq]
      · have := ih hp
        simpa [bandMsgs, List.filter, hq] using this

theorem takeBand_spec {Msg : Type} (b : Nat) (s : QueueState Msg)
    (h : bandMsgs b s ≠ []) :
    ∃ m s', takeBand b s = some (m, s') ∧
      bandMsgs b s = m :: bandMsgs b s' ∧
      ∀ c, c ≠ b → bandMsgs c s' = bandMsgs c s := by
  induction s with
  | nil => simp [bandMsgs] at h
  | cons q rest ih =>
    by_cases hq : q.2 = b
    · refine ⟨q.1, rest, ?_, ?_, ?_⟩
      · simp [takeBand, hq]
      · simp [bandMsgs, List.filter, hq]
      · intro c hc
        have : ¬ (q.2 = c) := by omega
        simp [bandMsgs, List.filter, this]
    · have h' : bandMsgs b rest ≠ [] := by
        simpa [bandMsgs, List.filter, hq] using h
      obtain ⟨m, s', hts, hband, hother⟩ := ih h'
      refine ⟨m, q :: s', ?_, ?_, ?_⟩
      · simp [takeBand, hq, hts]
      · simpa [bandMsgs, List.filter, hq] using hband
      · intro c hc
        by_cases hqc : q.2 = c
        · simpa [bandMsgs, List.filter, hqc] using hother c hc
        · simpa [bandMsgs, List.filter, hqc] using hother c hc

/-- On every send, the message is appended to the tail of its own band and
every other band is unchanged. -/
theorem bandMsgs_qsend {Msg : Type} (s : QueueState Msg) (m : Msg) (b c : Nat) :
    bandMsgs c (qsend s m b) =
      bandMsgs c s ++ (if c = b then [m] else []) := by
  by_cases h : c = b
  · subst h
    simp [bandMsgs, qsend, List.filter_append]
  · have : ¬ (b = c) := fun hh => h hh.symm
    simp [bandMsgs, qsend, List.filter_append, this, h]

/-- C1: send appends the message to the tail of its band and leaves every
other band unchanged, and on every non-empty queue state receive returns
the oldest message of the lowest-numbered non-empty band while leaving the
other bands untouched; together: band order is respected and messages
within one band are delivered FIFO. -/
theorem receive_lowest_band_fifo {Msg : Type} :
    (∀ (s : QueueState Msg) (m : Msg) (b c : Nat),
        bandMsgs c (qsend s m b) =
          bandMsgs c s ++ (if c = b then [m] else []))
  ∧ ∀ s : QueueState Msg, s ≠ [] →
      ∃ m b s', qreceive s = some ((m, b), s') ∧
        bandMsgs b s ≠ [] ∧
        (∀ p ∈ s, b ≤ p.2) ∧
        bandMsgs b s = m :: bandMsgs b s' ∧
        (∀ c, c ≠ b → bandMsgs c s' = bandMsgs c s) := by
  refine ⟨bandMsgs_qsend, ?_⟩
  intro s hne
  cases hmb : minBand s with
  | none => exact absurd ((minBand_none_iff s).mp hmb) hne
  | some b =>
    obtain ⟨p, hp, hpb⟩ := minBand_mem s b hmb
    have hbne : bandMsgs b s ≠ [] := by
      have := bandMsgs_ne_nil_of_mem s p hp
      rwa [hpb] at this
    obtain ⟨m, s', hts, hband, hother⟩ := takeBand_spec b s hbne
    refine ⟨m, b, s', ?_, hbne, minBand_le s b hmb, hband, hother⟩
    simp [qreceive, hmb, hts]

/-- Concrete run of the queue contract: a send at band 1, then a receive
on a queue holding messages at bands 2, 0, 2. -/
theorem receive_lowest_band_fifo_witness :
    (bandMsgs 1 (qsend ([(7, 1)] : QueueState Nat) 8 1) =
      bandMsgs 1 ([(7, 1)] : QueueState Nat) ++ (if 1 = 1 then [8] else []))
  ∧ ∃ m b s', qreceive ([(10, 2), (11, 0), (12, 2)] : QueueState Nat)
        = some ((m, b), s') ∧
      bandMsgs b [(10, 2), (11, 0), (12, 2)] ≠ [] ∧
      (∀ p ∈ ([(10, 2), (11, 0), (12, 2)] : QueueState Nat), b ≤ p.2) ∧
      bandMsgs b [(10, 2), (11, 0), (12, 2)] = m :: bandMsgs b s' ∧
      (∀ c, c ≠ b →
        bandMsgs c s' = bandMsgs c [(10, 2), (11, 0), (12, 2)]) :=
  ⟨receive_lowest_band_fifo.1 [(7, 1)] 8 1 1,
   receive_lowest_band_fifo.2 [(10, 2), (11, 0), (12, 2)] (by decide)⟩

/-- C2: create_pod writes the labels rtresource_id and criticality on top
of the template and selector labels, but never rtresource_name,
rtresource_uid or rtresource_namespace, so the pod watcher, which requires
all of rtresource_name, rtresource_uid, rtresource_namespace and
criticality, emits no message for a pod it created.  Evaluated at a
concrete RTResource. -/
theorem created_pod_missing_watcher_labels :
    lookupLabel (createPodLabels sampleRTResource) "rtresource_id" = some "uid-1"
  ∧ lookupLabel (createPodLabels sampleRTResource) "criticality" = some "2"
  ∧ lookupLabel (createPodLabels sampleRTResource) "app" = some "svc"
  ∧ lookupLabel (createPodLabels sampleRTResource) "tier" = some "rt"
  ∧ lookupLabel (createPodLabels sampleRTResource) "rtresource_name" = none
  ∧ lookupLabel (createPodLabels sampleRTResource) "rtresource_uid" = none
  ∧ lookupLabel (createPodLabels sampleRTResource) "rtresource_namespace" = none
  ∧ podWatcherMessage (some (createPodLabels sampleRTResource)) = none := by
  decide

/-- C3: for a freshly admitted RTResource, whose status is absent, the
Exists branch submits observed_generation and desired_replicas as the claim
states, but the conditions list it submits is empty: the loop only mutates
conditions already present and never inserts Progressing or Ready. -/
theorem fresh_resource_conditions_not_inserted :
    (watchdogNewStatus "2026-01-01T00:00:00Z" sampleRTResource).observed_generation = some 4
  ∧ (watchdogNewStatus "2026-01-01T00:00:00Z" sampleRTResource).desired_replicas = some 3
  ∧ (watchdogNewStatus "2026-01-01T00:00:00Z" sampleRTResource).conditions = some []
  ∧ ¬ ∃ c ∈ ((watchdogNewStatus "2026-01-01T00:00:00Z" sampleRTResource).conditions.getD []),
        c.condition_type = "Progressing" := by
  decide

/-- C10: the Exists-branch status update carries the stored replicas value
over unchanged, rewrites the conditions list position by position, and
the per-condition update is the identity on every condition whose type is
neither Progressing nor Ready. -/
theorem exists_branch_status_frame (now : String) (r : RTResource) :
    (watchdogNewStatus now r).replicas = (r.status.getD defaultStatus).replicas
  ∧ (watchdogNewStatus now r).conditions =
      some ((statusConds r).map (updateCondExists now))
  ∧ ∀ cond : Condition, cond.condition_type ≠ "Progressing" →
      cond.condition_type ≠ "Ready" → updateCondExists now cond = cond := by
  refine ⟨rfl, rfl, ?_⟩
  intro cond h1 h2
  simp [updateCondExists, h1, h2]

/-- Concrete run of the frame property on a condition of another type. -/
theorem exists_branch_status_frame_witness :
    updateCondExists "t0"
      { condition_type := "Available", status := "True",
        last_transition_time := none, reason := none, message := none } =
      { condition_type := "Available", status := "True",
        last_transition_time := none, reason := none, message := none } :=
  (exists_branch_status_frame "t0" sampleRTResource).2.2 _ (by decide) (by decide)

theorem scaleAction_spec (want : Int) (l : List PodM) :
    (want > (l.length : Int) →
       scaleAction want l =
         { create_count := (want - (l.length : Int)).toNat, to_delete := [] })
  ∧ (want < (l.length : Int) →
       scaleAction want l =
         { create_count := 0,
           to_delete := l.take (((l.length : Int) - want).toNat) })
  ∧ (want = (l.length : Int) →
       scaleAction want l = { create_count := 0, to_delete := [] }) := by
  refine ⟨?_, ?_, ?_⟩ <;> intro h <;> simp only [scaleAction]
  · rw [if_pos h]
    simp only [ScaleAction.mk.injEq, and_true]
    omega
  · rw [if_neg (by omega), if_pos h]
    simp only [ScaleAction.mk.injEq, true_and]
    congr 1
    omega
  · rw [if_neg (by omega), if_neg (by omega)]

/-- C4: with have listed pods labelled rtresource_id equal to uid and want
desired replicas, the Exists branch creates exactly want minus have pods
when want exceeds have, deletes exactly the first have minus want listed
pods when have exceeds want, and does nothing when they agree. -/
theorem scale_delta_matches_replicas (want : Int) (pods : List PodM) (uid : String) :
    (want > ((listPodsForUid pods uid).length : Int) →
       scaleAction want (listPodsForUid pods uid) =
         { create_count := (want - ((listPodsForUid pods uid).length : Int)).toNat,
           to_delete := [] })
  ∧ (want < ((listPodsForUid pods uid).length : Int) →
       scaleAction want (listPodsForUid pods uid) =
         { create_count := 0,
           to_delete := (listPodsForUid pods uid).take
             ((((listPodsForUid pods uid).length : Int) - want).toNat) })
  ∧ (want = ((listPodsForUid pods uid).length : Int) →
       scaleAction want (listPodsForUid pods uid) =
         { create_count := 0, to_delete := [] }) :=
  scaleAction_spec want (listPodsForUid pods uid)

/-- Concrete scale-up: one labelled pod listed, five desired, four pods
created and none deleted. -/
theorem scale_delta_matches_replicas_witness :
    (5 : Int) > (((listPodsForUid [samplePod] "uid-1").length : Nat) : Int)
  ∧ scaleAction 5 (listPodsForUid [samplePod] "uid-1") =
      { create_count := ((5 : Int) - (((listPodsForUid [samplePod] "uid-1").length : Nat) : Int)).toNat,
        to_delete := [] } :=
  ⟨by decide, (scale_delta_matches_replicas 5 [samplePod] "uid-1").1 (by decide)⟩

theorem watchdogFinish_exits_iff (cfg : ControllerConfig) (a w : Nat) :
    (watchdogFinish cfg a w).exits = true ↔
      (cfg.threshold < a - (w - 1) ∧ cfg.min_watchdogs < a) := by
  by_cases h : a - (w - 1) > cfg.threshold ∧ a > cfg.min_watchdogs
  · simp [watchdogFinish, h]
  · simp only [watchdogFinish]
    rw [if_neg h]
    simpa using h

theorem watchdogFinish_working (cfg : ControllerConfig) (a w : Nat) :
    (watchdogFinish cfg a w).working_threads = w - 1 := by
  simp only [watchdogFinish]
  split <;> rfl

theorem poolInvariant (cfg : ControllerConfig)
    (hmm : cfg.min_watchdogs ≤ cfg.max_watchdogs) :
    ∀ s, PoolReachable cfg s →
      cfg.min_watchdogs ≤ s.active_threads ∧ s.active_threads ≤ cfg.max_watchdogs := by
  intro s h
  induction h with
  | bootstrap => exact ⟨le_rfl, hmm⟩
  | step hr hstep ih =>
    obtain ⟨ih1, ih2⟩ := ih
    cases hstep with
    | recv hw => exact ⟨ih1, ih2⟩
    | finish hw hwa =>
      rename_i a w
      simp only at ih1 ih2 ⊢
      cases hex : (watchdogFinish cfg a w).exits with
      | false => simpa [hex] using And.intro ih1 ih2
      | true =>
        obtain ⟨-, hmin⟩ := (watchdogFinish_exits_iff cfg a w).mp hex
        simp only [hex, if_true]
        omega
    | grow hidle =>
      rename_i a w
      simp only at ih1 ih2 ⊢
      simp only [superviseNewActive]
      split <;> omega

/-- C5: whenever the supervisor sees the idle count below the threshold,
the new active_threads value it installs is the minimum of active_threads
plus the shortfall and max_watchdogs; and along every reachable pool state
active_threads stays at or below max_watchdogs. -/
theorem supervisor_growth_capped (cfg : ControllerConfig)
    (hmm : cfg.min_watchdogs ≤ cfg.max_watchdogs) :
    (∀ a w : Nat, a - w < cfg.threshold →
        superviseNewActive cfg a w =
          min (a + (cfg.threshold - (a - w))) cfg.max_watchdogs)
  ∧ (∀ s, PoolReachable cfg s → s.active_threads ≤ cfg.max_watchdogs) := by
  constructor
  · intro a w _
    simp only [superviseNewActive]
    split <;> omega
  · intro s h
    exact (poolInvariant cfg hmm s h).2

/-- Concrete growth step with the default configuration: five active, four
busy, one idle, shortfall two, pool grows to seven. -/
theorem supervisor_growth_capped_witness :
    ((5 : Nat) - 4 < (3 : Nat)
  ∧ superviseNewActive ⟨10, 20, 3⟩ 5 4 = min (5 + (3 - (5 - 4))) 20)
  ∧ PoolState.active_threads ⟨10, 0⟩ ≤ 20 :=
  ⟨⟨by decide, (supervisor_growth_capped ⟨10, 20, 3⟩ (by decide)).1 5 4 (by decide)⟩,
   (supervisor_growth_capped ⟨10, 20, 3⟩ (by decide)).2 ⟨10, 0⟩ PoolReachable.bootstrap⟩

/-- C6: after decrementing working_threads, a worker exits exactly when the
idle count strictly exceeds the threshold and active_threads strictly
exceeds min_watchdogs; and along every pool state reachable from the
completed bootstrap, active_threads never drops below min_watchdogs. -/
theorem worker_exit_iff_min_pool (cfg : ControllerConfig)
    (hmm : cfg.min_watchdogs ≤ cfg.max_watchdogs) :
    (∀ a w : Nat, (watchdogFinish cfg a w).exits = true ↔
        (cfg.threshold < a - (w - 1) ∧ cfg.min_watchdogs < a))
  ∧ (∀ s, PoolReachable cfg s → cfg.min_watchdogs ≤ s.active_threads) :=
  ⟨watchdogFinish_exits_iff cfg, fun s h => (poolInvariant cfg hmm s h).1⟩

/-- Concrete exit decision with the default configuration: fifteen active,
two busy before the decrement, the worker exits; and the bootstrap state
meets the lower bound. -/
theorem worker_exit_iff_min_pool_witness :
    ((watchdogFinish ⟨10, 20, 3⟩ 15 2).exits = true ↔
      ((3 : Nat) < 15 - (2 - 1) ∧ (10 : Nat) < 15))
  ∧ (10 : Nat) ≤ PoolState.active_threads ⟨10, 0⟩ :=
  ⟨(worker_exit_iff_min_pool ⟨10, 20, 3⟩ (by decide)).1 15 2,
   (worker_exit_iff_min_pool ⟨10, 20, 3⟩ (by decide)).2 ⟨10, 0⟩ PoolReachable.bootstrap⟩

theorem sortByCriticality_sorted (items : List RTResource) :
    (sortByCriticality items).Pairwise
      (fun a b => a.spec.criticality ≤ b.spec.criticality) := by
  have hs : (sortByCriticality items).Pairwise
      (fun a b : RTResource =>
        decide (a.spec.criticality ≤ b.spec.criticality) = true) :=
    List.sorted_mergeSort
      (fun a b c hab hbc => by
        simp only [decide_eq_true_eq] at *
        omega)
      (fun a b => by
        simp only [Bool.or_eq_true, decide_eq_true_eq]
        omega)
      items
  exact hs.imp (fun h => by simpa using h)

/-- C7: a reconciler pass processes resources in ascending criticality
(the processed subsequence is pairwise ordered and comes from a sorted
permutation of the listed items), touches exactly the resources holding a
Progressing True condition, and for each of them writes replicas equal to
the running pod count and maps the flip over the stored conditions exactly
when that count equals the stored desired_replicas. -/
theorem status_pass_sorted_updates (items : List RTResource) (now : String)
    (r : RTResource) (pods : List PodM) (d : Int)
    (hd : r.status.bind (fun s => s.desired_replicas) = some d) :
    (statusPassList items).Pairwise
      (fun a b => a.spec.criticality ≤ b.spec.criticality)
  ∧ (sortByCriticality items).Perm items
  ∧ (∀ x ∈ statusPassList items, hasProgressingTrue x = true)
  ∧ (updaterNewStatus now r pods).replicas = some ((runningCount pods : Nat) : Int)
  ∧ (((runningCount pods : Nat) : Int) = d →
       (updaterNewStatus now r pods).conditions =
         some ((statusConds r).map (flipCondReady now)))
  ∧ (((runningCount pods : Nat) : Int) ≠ d →
       (updaterNewStatus now r pods).conditions = some (statusConds r))
  ∧ (∀ c : Condition,
       (flipCondReady now c).condition_type = c.condition_type
     ∧ (c.condition_type = "Progressing" →
          (flipCondReady now c).status = "False"
        ∧ (flipCondReady now c).last_transition_time = some now)
     ∧ (c.condition_type = "Ready" →
          (flipCondReady now c).status = "True"
        ∧ (flipCondReady now c).last_transition_time = some now)) := by
  refine ⟨?_, ?_, ?_, ?_, ?_, ?_, ?_⟩
  · exact List.Pairwise.sublist (List.filter_sublist _) (sortByCriticality_sorted items)
  · exact List.mergeSort_perm items _
  · intro x hx
    exact List.of_mem_filter hx
  · simp [updaterNewStatus]
  · intro h
    simp only [updaterNewStatus, hd, Option.getD_some]
    rw [if_pos h]
    rfl
  · intro h
    simp only [updaterNewStatus, hd, Option.getD_some]
    rw [if_neg h]
    rfl
  · intro c
    refine ⟨?_, ?_, ?_⟩
    · simp only [flipCondReady]
      split <;> split <;> rfl
    · intro hc
      simp [flipCondReady, hc]
    · intro hc
      simp [flipCondReady, hc]

/-- Concrete pass: a single mid-reconciliation resource with one desired
replica and one running pod. -/
theorem status_pass_sorted_updates_witness :
    (updaterNewStatus "t1" sampleProgressingResource [samplePod]).replicas =
      some ((runningCount [samplePod] : Nat) : Int)
  ∧ (((runningCount [samplePod] : Nat) : Int) = 1 →
       (updaterNewStatus "t1" sampleProgressingResource [samplePod]).conditions =
         some ((statusConds sampleProgressingResource).map (flipCondReady "t1"))) :=
  ⟨(status_pass_sorted_updates [sampleProgressingResource] "t1"
      sampleProgressingResource [samplePod] 1 (by decide)).2.2.2.1,
   (status_pass_sorted_updates [sampleProgressingResource] "t1"
      sampleProgressingResource [samplePod] 1 (by decide)).2.2.2.2.1⟩

theorem updaterLoopExits_iff (ec : Nat) (hec : ec < 10) (outcomes : List Bool) :
    updaterLoopExits ec outcomes = true ↔ 10 ≤ ec + outcomes.count false := by
  induction outcomes generalizing ec with
  | nil =>
    simp [updaterLoopExits]
    omega
  | cons ok rest ih =>
    cases ok with
    | true =>
      simp only [updaterLoopExits, if_true, List.count_cons]
      rw [ih ec hec]
      simp
    | false =>
      by_cases h : ec + 1 ≥ 10
      · simp only [updaterLoopExits, List.count_cons]
        rw [if_neg (by simp), if_pos h]
        simp
        omega
      · simp only [updaterLoopExits, List.count_cons]
        rw [if_neg (by simp), if_neg h, ih (ec + 1) (by omega)]
        simp
        omega

/-- C8 counterexample: nine failed lists, one successful list, then a
single further failed list.  At no point do ten consecutive failures occur
and a success intervenes before the tenth failure, yet the loop exits,
because the Ok arm never resets the failure counter. -/
theorem updater_exit_without_reset :
    updaterLoopExits 0 (List.replicate 9 false ++ [true] ++ [false]) = true
  ∧ (List.replicate 9 false ++ [true] ++ [false]).count false = 10 := by
  decide

/-- C8 amended: the loop control depends only on the list outcomes (a
status-update error is logged inside a pass and never reaches the
counter), and the reconciler exits exactly when the list failures reach
ten in total, whether or not successes intervene. -/
theorem updater_exits_iff_ten_total_failures (outcomes : List Bool) :
    updaterLoopExits 0 outcomes = true ↔ 10 ≤ outcomes.count false := by
  simpa using updaterLoopExits_iff 0 (by omega) outcomes

/-- C9: the reconciliation action gives identical results under any two
environments that agree on the fetch and pod-list outcomes (so
replace_status, create_pod and delete_pod failures are contained), and it
completes normally whenever the pod list succeeds; but a pod-list failure
after a successful fetch panics the worker instead of returning normally
(the unwrap at watchdog.rs line 241), shown at a concrete environment. -/
theorem reconcile_contains_errors_except_list :
    (∀ (now : String) (env env' : ReconcileEnv), env.fetch = env'.fetch →
        env.list_pods = env'.list_pods → reconcile now env = reconcile now env')
  ∧ (∀ (now : String) (env : ReconcileEnv) (pod_list : List PodM),
        env.list_pods = .ok pod_list → (reconcile now env).outcome = .completed)
  ∧ (reconcile "t0"
      { fetch := .found sampleRTResource, list_pods := .err,
        replace_status_ok := false, create_ok := fun _ => false,
        delete_ok := fun _ => false }).outcome = .panicked := by
  refine ⟨?_, ?_, rfl⟩
  · intro now env env' h1 h2
    unfold reconcile
    rw [h1, h2]
  · intro now env pod_list h
    unfold reconcile
    rw [h]
    cases env.fetch <;> rfl

/-- Concrete containment: two environments that differ in every
replace_status, create and delete outcome produce the same result, and a
successful list completes the action. -/
theorem reconcile_contains_errors_except_list_witness :
    reconcile "t0"
      { fetch := .notFound, list_pods := .ok [samplePod],
        replace_status_ok := true, create_ok := fun _ => true,
        delete_ok := fun _ => true } =
    reconcile "t0"
      { fetch := .notFound, list_pods := .ok [samplePod],
        replace_status_ok := false, create_ok := fun _ => false,
        delete_ok := fun _ => false }
  ∧ (reconcile "t0"
      { fetch := .notFound, list_pods := .ok [samplePod],
        replace_status_ok := true, create_ok := fun _ => true,
        delete_ok := fun _ => true }).outcome = .completed :=
  ⟨reconcile_contains_errors_except_list.1 "t0" _ _ rfl rfl,
   reconcile_contains_errors_except_list.2.1 "t0" _ [samplePod] rfl⟩

end PreemptK8s
